import Mathlib

/-!
Shallow embedding of the pnps-utils repository (Rust sources `src/parse.rs` and
`src/calc.rs`) together with theorems settling the frozen claims about it.

Modelling conventions:
* Rust `HashMap<K, V>` is modelled as an association list `List (K × V)`; the
  list order stands for the map's iteration order, which in Rust is arbitrary
  (seeded hashing) and in particular unrelated to insertion order.
* `Uuid` is modelled by its canonical textual form, so `uid.to_string()` is the
  identity.
* `u32` counters are modelled as `Nat` (no claim exercises wrap-around), `f64`
  quality scores as `ℚ`, and `f64` result cells by the classification type
  `F64` below, since the claims about them concern only the IEEE-754 class of
  a value (NaN / infinite / zero / subnormal / normal).
* External collaborators (the `bio_rascal` library: depth-file reading,
  codon-synonymy classification, per-group ratio computation, UID parsing) are
  passed in as function parameters; the control flow around them is translated
  from the repository's source.
* Fatal `bail!`/`?` errors are `Except.error`; a Rust panic (e.g. `unwrap()`
  on `None`) is the distinguished `RunResult.crash` outcome.
-/

/-- `Uuid` modelled by its canonical textual form. -/
abbrev Uuid := String

/-- `HashMap::get`: first entry with the given key, if any. -/
def mapGet {α β : Type} [DecidableEq α] : List (α × β) → α → Option β
  | [], _ => none
  | p :: rest, k => if p.1 = k then some p.2 else mapGet rest k

/-- `HashMap::insert`: replace the value at the key, or add a new entry. -/
def mapInsert {α β : Type} [DecidableEq α] : List (α × β) → α → β → List (α × β)
  | [], k, v => [(k, v)]
  | p :: rest, k, v => if p.1 = k then (k, v) :: rest else p :: mapInsert rest k v

/-- `HashMap::get_mut` followed by an in-place mutation: apply `f` to the value
at the key, leave the map untouched when the key is absent (never inserts). -/
def mapUpdate {α β : Type} [DecidableEq α] (m : List (α × β)) (k : α) (f : β → β) :
    List (α × β) :=
  m.map (fun p => if p.1 = k then (p.1, f p.2) else p)

/-- Core of Rust `str::split_once`: split at the first occurrence of `sep`. -/
def splitOnceAux (sep : Char) : List Char → Option (List Char × List Char)
  | [] => none
  | c :: cs =>
    if c = sep then some ([], cs)
    else
      match splitOnceAux sep cs with
      | none => none
      | some (l, r) => some (c :: l, r)

/-- Rust `str::split_once`. -/
def splitOnce (sep : Char) (s : String) : Option (String × String) :=
  (splitOnceAux sep s.toList).map (fun p => (String.mk p.1, String.mk p.2))

/-- The IEEE-754 class of an `f64` value, with the numeric payload kept only
for normal values (the claims depend on the class, and on equality of cell
values, never on the decimal rendering). -/
inductive F64 where
  | nan : F64
  | infinite : F64
  | zero : F64
  | subnormal : F64
  | normal : ℚ → F64
deriving DecidableEq

/-- Rust `f64::is_normal`: neither zero, subnormal, infinite nor NaN. -/
def F64.is_normal : F64 → Bool
  | .normal _ => true
  | _ => false

/-- `bio_rascal::gff::Annotation`, fields used by this repository.
`stop` models the Rust field `end` (a Lean keyword). -/
structure Ann where
  uid : Uuid
  seq_id : String
  start : Nat
  stop : Nat
  feature_type : String
deriving DecidableEq

/-- `Annotation::contains` on positions, the half-open interval test. -/
def Ann.contains (a : Ann) (pos : Nat) : Bool :=
  decide (a.start ≤ pos ∧ pos < a.stop)

/-- `bio_rascal::snps::PnPs`; `Default` gives all-zero fields. -/
structure PnPs where
  uid : Uuid := ""
  exp_syn : ℚ := 0
  exp_nonsyn : ℚ := 0
  syn : Nat := 0
  nonsyn : Nat := 0
  coverage : Nat := 0
deriving DecidableEq

/-- Sample information from the config file: the map is keyed by the
variant-file column name, the value is (sample display id, depth-file path). -/
abbrev SampleInfo := List (String × String × String)

/-- `SamplePnPs = HashMap<String, HashMap<Uuid, PnPs>>`. -/
abbrev SamplePnPsL := List (String × List (Uuid × PnPs))

/-- Outcome of a run fragment: `ok`, a propagated `anyhow` error (`bail!`/`?`),
or a Rust panic such as `Option::unwrap` on `None`. -/
inductive RunResult (α : Type) where
  | ok : α → RunResult α
  | fail : String → RunResult α
  | crash : String → RunResult α
deriving DecidableEq

/-! ### `parse.rs` -/

/-- Loop body accumulator of `read_gff_file`: keep only `"CDS"` features. -/
def gffGo : List Ann → List (Uuid × Ann) → List (Uuid × Ann)
  | [], m => m
  | a :: rest, m =>
    gffGo rest (if a.feature_type = "CDS" then mapInsert m a.uid a else m)

/-- `read_gff_file`, on the stream of parsed GFF records. -/
def read_gff_file (anns : List Ann) : List (Uuid × Ann) := gffGo anns []

/-- The coverage assigned in `prepare_sample_pnps`: the depth map's
`coverage_at` over the annotation interval, `0` when the depth map has no
entry for the reference sequence.  `dm` models the depth map read from the
depth file: per reference-sequence id, the external `coverage_at` function on
the interval bounds. -/
def sample_coverage (dm : String → Option (Nat → Nat → Nat)) (a : Ann) : Nat :=
  match dm a.seq_id with
  | none => 0
  | some depth => depth a.start a.stop

/-- The fresh record `p` built per base entry in `prepare_sample_pnps`:
baseline expected counts, zero observed counts, measured coverage. -/
def prepared_pnps (dm : String → Option (Nat → Nat → Nat)) (pnps : PnPs) (a : Ann) : PnPs :=
  { uid := a.uid, exp_nonsyn := pnps.exp_nonsyn, exp_syn := pnps.exp_syn,
    syn := 0, nonsyn := 0, coverage := sample_coverage dm a }

/-- Loop of `prepare_sample_pnps`: keep `p` only when its coverage reaches the
minimum; a base entry whose annotation is missing aborts. -/
def prepareGo (dm : String → Option (Nat → Nat → Nat)) (anns : List (Uuid × Ann))
    (min_cov : Nat) : List PnPs → List (Uuid × PnPs) → Except String (List (Uuid × PnPs))
  | [], sp => .ok sp
  | pnps :: rest, sp =>
    match mapGet anns pnps.uid with
    | none => .error ("Cannot find annotation " ++ pnps.uid)
    | some a =>
      if min_cov ≤ (prepared_pnps dm pnps a).coverage then
        prepareGo dm anns min_cov rest
          (mapInsert sp (prepared_pnps dm pnps a).uid (prepared_pnps dm pnps a))
      else prepareGo dm anns min_cov rest sp

/-- `prepare_sample_pnps`. -/
def prepare_sample_pnps (pnps_base : List PnPs) (dm : String → Option (Nat → Nat → Nat))
    (anns : List (Uuid × Ann)) (min_cov : Nat) : Except String (List (Uuid × PnPs)) :=
  prepareGo dm anns min_cov pnps_base []

/-- `sp.values().max_by_key(|c| c.coverage)`: on ties Rust returns the last
maximal element of the iteration. -/
def max_by_coverage : List (Uuid × PnPs) → Option PnPs
  | [] => none
  | (_, p) :: rest =>
    match max_by_coverage rest with
    | none => some p
    | some q => some (if q.coverage < p.coverage then p else q)

/-- Loop of `add_depth_sample_data`; `read_depth` models `read_depth_file` on
the depth-file path. The `.unwrap()` of the max-coverage lookup is the
`RunResult.crash` branch. -/
def addDepthGo (pnps_list : List PnPs) (anns : List (Uuid × Ann))
    (read_depth : String → String → Option (Nat → Nat → Nat)) (min_cov : Nat) :
    SampleInfo → SamplePnPsL → RunResult SamplePnPsL
  | [], acc => .ok acc
  | (_, sample_id, d) :: rest, acc =>
    match prepare_sample_pnps pnps_list (read_depth d) anns min_cov with
    | .error e => .fail e
    | .ok sp =>
      match max_by_coverage sp with
      | none => .crash "called Option unwrap on a None value"
      | some _max_pnps =>
        addDepthGo pnps_list anns read_depth min_cov rest (mapInsert acc sample_id sp)

/-- `add_depth_sample_data`. -/
def add_depth_sample_data (sample_info : SampleInfo) (pnps_list : List PnPs)
    (anns : List (Uuid × Ann)) (read_depth : String → String → Option (Nat → Nat → Nat))
    (min_cov : Nat) : RunResult SamplePnPsL :=
  addDepthGo pnps_list anns read_depth min_cov sample_info []

/-- `record.info` fields used by `parse_vcf_file`. -/
structure VcfInfo where
  dp : Nat
  indel : Bool
deriving DecidableEq

/-- A VCF record as consumed by `parse_vcf_file`; `samples` models
`record.get_sample_snps()`: the per-sample `(vcf sample id, alt allele)`
calls of the record. -/
structure VcfRecord where
  chrom : String
  pos : Nat
  qual : ℚ
  info : VcfInfo
  ref_c : String
  samples : List (String × String)
deriving DecidableEq

/-- Mutable state of the `parse_vcf_file` loop. -/
structure VcfState where
  count : Nat
  skipped_dp : Nat
  skipped_qual : Nat
  skipped_indel : Nat
  pnps_map : SamplePnPsL
deriving DecidableEq

/-- Innermost classification step of `parse_vcf_file`: look up the (already
resolved) sample's record for the annotation's UID; if present, classify via
the external `Annotation::is_syn` and bump `syn` or `nonsyn`; a classification
error is logged and ignored. -/
def classify_call (isSyn : Ann → String → Nat → String → Except String Bool)
    (a : Ann) (seq : String) (pos : Nat) (alt : String)
    (m : List (Uuid × PnPs)) : List (Uuid × PnPs) :=
  match mapGet m a.uid with
  | none => m
  | some _ =>
    match isSyn a seq pos alt with
    | .ok true => mapUpdate m a.uid (fun p => { p with syn := p.syn + 1 })
    | .ok false => mapUpdate m a.uid (fun p => { p with nonsyn := p.nonsyn + 1 })
    | .error _ => m

/-- Per-sample-call step: resolve the VCF sample id through the config-file
mapping (unknown id: log and continue), then update that sample's table. -/
def classify_sample_call (si : SampleInfo)
    (isSyn : Ann → String → Nat → String → Except String Bool)
    (a : Ann) (seq : String) (pos : Nat)
    (pm : SamplePnPsL) (call : String × String) : SamplePnPsL :=
  match mapGet si call.1 with
  | none => pm
  | some sd =>
    match mapGet pm sd.1 with
    | none => pm
    | some _ => mapUpdate pm sd.1 (fun m => classify_call isSyn a seq pos call.2 m)

/-- Per-annotation step: require the reference sequence (missing: skip the
annotation for this record), then process every sample call of the record. -/
def classify_ann (fasta : String → Option String) (si : SampleInfo)
    (isSyn : Ann → String → Nat → String → Except String Bool)
    (pos : Nat) (calls : List (String × String))
    (pm : SamplePnPsL) (a : Ann) : SamplePnPsL :=
  match fasta a.seq_id with
  | none => pm
  | some seq => calls.foldl (fun pm call => classify_sample_call si isSyn a seq pos pm call) pm

/-- One iteration of the `parse_vcf_file` record loop: count the record, apply
the depth, quality and indel/multi-base filters in order (each with its own
skip counter), and classify surviving records against every containing
annotation of the record's reference sequence. -/
def process_record (ann_seq : List (String × List Ann)) (fasta : String → Option String)
    (si : SampleInfo) (isSyn : Ann → String → Nat → String → Except String Bool)
    (min_qual : ℚ) (min_depth : Nat) (st : VcfState) (record : VcfRecord) : VcfState :=
  let st := { st with count := st.count + 1 }
  if record.info.dp < min_depth then { st with skipped_dp := st.skipped_dp + 1 }
  else if record.qual < min_qual then { st with skipped_qual := st.skipped_qual + 1 }
  else if record.info.indel = true ∨ 1 < record.ref_c.length then
    { st with skipped_indel := st.skipped_indel + 1 }
  else
    match mapGet ann_seq record.chrom with
    | none => st
    | some anns =>
      { st with
        pnps_map :=
          (anns.filter (fun a => a.contains record.pos)).foldl
            (classify_ann fasta si isSyn record.pos record.samples) st.pnps_map }

/-- The `ann_seq` grouping of annotations by reference-sequence id built at the
top of `parse_vcf_file`. -/
def build_ann_seq (anns : List (Uuid × Ann)) : List (String × List Ann) :=
  anns.foldl
    (fun m p =>
      match mapGet m p.2.seq_id with
      | some _ => mapUpdate m p.2.seq_id (fun l => l ++ [p.2])
      | none => m ++ [(p.2.seq_id, [p.2])])
    []

/-- The end-of-stream figure `skipped_dp as f64 / count as f64 * 100f64` of
`parse_vcf_file`, under IEEE-754 semantics.  The source performs this division
unconditionally; the `if` below is not a branch of the source but the IEEE
rule for dividing by a zero denominator (0/0 is NaN, n/0 with n > 0 is +inf;
for counter values the finite quotient is never subnormal). -/
def dp_percentage (skipped_dp count : Nat) : F64 :=
  if count = 0 then (if skipped_dp = 0 then F64.nan else F64.infinite)
  else if skipped_dp = 0 then F64.zero
  else F64.normal ((100 * skipped_dp : ℚ) / (count : ℚ))

/-- `parse_vcf_file`: fold the record stream, returning the final state and
the low-depth skip percentage of the end-of-stream report. -/
def parse_vcf_file (anns : List (Uuid × Ann)) (fasta : String → Option String)
    (si : SampleInfo) (isSyn : Ann → String → Nat → String → Except String Bool)
    (min_qual : ℚ) (min_depth : Nat) (records : List VcfRecord)
    (pm : SamplePnPsL) : VcfState × F64 :=
  let ann_seq := build_ann_seq anns
  let st := records.foldl (process_record ann_seq fasta si isSyn min_qual min_depth)
    ⟨0, 0, 0, 0, pm⟩
  (st, dp_percentage st.skipped_dp st.count)

/-! ### `calc.rs` -/

/-- Grouping key `(gene_id, taxon_id, taxon_lineage)`. -/
abbrev GroupKey := String × Nat × String

/-- `bio_rascal::snps::GroupPnPs`: the group's shared member records. -/
structure GroupPnPsL where
  gene_id : String
  taxon_id : Nat
  pnps : List PnPs
  taxon_lineage : String
deriving DecidableEq

/-- Grouped table: per sample, GroupKey to group. -/
abbrev SampleGroupPnPsL := List (String × List (GroupKey × GroupPnPsL))

/-- Gene ids for a UID in `group_pnps`: the gene-map entry, defaulting to the
UID's textual form (`uid.to_string()`, the identity in this model). -/
def gene_ids_of (gene_map : List (Uuid × List String)) (uid : Uuid) : List String :=
  match mapGet gene_map uid with
  | none => [uid]
  | some values => values

/-- Taxon id for a UID in `group_pnps`, defaulting to `0`. -/
def taxon_of (taxon_map : List (Uuid × Nat)) (uid : Uuid) : Nat :=
  match mapGet taxon_map uid with
  | none => 0
  | some taxon_id => taxon_id

/-- Lineage for a UID in `group_pnps`, defaulting to the empty string. -/
def lineage_of (lineage_map : List (Uuid × String)) (uid : Uuid) : String :=
  match mapGet lineage_map uid with
  | none => ""
  | some taxon_lineage => taxon_lineage

/-- The `Entry::and_modify(push).or_insert(...)` step of `group_pnps`. -/
def insert_group (sm : List (GroupKey × GroupPnPsL)) (gene_id : String) (taxon_id : Nat)
    (taxon_lineage : String) (value : PnPs) : List (GroupKey × GroupPnPsL) :=
  match mapGet sm (gene_id, taxon_id, taxon_lineage) with
  | some _ => mapUpdate sm (gene_id, taxon_id, taxon_lineage)
      (fun v => { v with pnps := v.pnps ++ [value] })
  | none => sm ++ [((gene_id, taxon_id, taxon_lineage),
      { gene_id := gene_id, taxon_id := taxon_id,
        pnps := [value], taxon_lineage := taxon_lineage })]

/-- Per-entry step of `group_pnps`: fan the record out into one group per gene
id of the UID. -/
def group_entry (gene_map : List (Uuid × List String)) (taxon_map : List (Uuid × Nat))
    (lineage_map : List (Uuid × String)) (sm : List (GroupKey × GroupPnPsL))
    (e : Uuid × PnPs) : List (GroupKey × GroupPnPsL) :=
  (gene_ids_of gene_map e.1).foldl
    (fun sm gene_id =>
      insert_group sm gene_id (taxon_of taxon_map e.1) (lineage_of lineage_map e.1) e.2)
    sm

/-- Per-sample loop of `group_pnps`. -/
def group_sample (gene_map : List (Uuid × List String)) (taxon_map : List (Uuid × Nat))
    (lineage_map : List (Uuid × String)) (entries : List (Uuid × PnPs)) :
    List (GroupKey × GroupPnPsL) :=
  entries.foldl (group_entry gene_map taxon_map lineage_map) []

/-- `group_pnps`. -/
def group_pnps (pnps_map : SamplePnPsL) (gene_map : List (Uuid × List String))
    (taxon_map : List (Uuid × Nat)) (lineage_map : List (Uuid × String)) :
    SampleGroupPnPsL :=
  pnps_map.map (fun p => (p.1, group_sample gene_map taxon_map lineage_map p.2))

/-- Cell selection of `write_output`: the sample's record for the UID through
`result_type` (the external `get_pnps`/`get_pn`/`get_ps`, modelled by `f`), or
the `f64::NAN` sentinel when the sample has no record for the UID. -/
def cell_value (f : PnPs → F64) (entries : List (Uuid × PnPs)) (uid : Uuid) : F64 :=
  match mapGet entries uid with
  | none => F64.nan
  | some value => f value

/-- The `values` vector of one `write_output` row, in sample iteration order. -/
def row_values (pm : SamplePnPsL) (f : PnPs → F64) (uid : Uuid) : List F64 :=
  pm.map (fun p => cell_value f p.2 uid)

/-- Header row of `write_output`: `"uid"` then the sample ids in the map's
iteration order. -/
def output_header (pm : SamplePnPsL) : List String :=
  "uid" :: pm.map Prod.fst

/-- The `non_null_index` of `write_output`: the set of UIDs seen in any
sample (a `HashSet`; modelled as a deduplicated list). -/
def non_null_index (pm : SamplePnPsL) : List Uuid :=
  ((pm.map (fun p => p.2.map Prod.fst)).flatten).dedup

/-- Data rows of `write_output`: one row per indexed UID, written only when at
least one cell is IEEE-normal. -/
def output_rows (pm : SamplePnPsL) (f : PnPs → F64) : List (Uuid × List F64) :=
  (non_null_index pm).filterMap (fun uid =>
    if 0 < ((row_values pm f uid).filter F64.is_normal).length
    then some (uid, row_values pm f uid) else none)

/-- `write_output`: the header and the emitted data rows. -/
def write_output (pm : SamplePnPsL) (f : PnPs → F64) :
    List String × List (Uuid × List F64) :=
  (output_header pm, output_rows pm f)

/-- Cell selection of `write_grouped_output`; the group ratio functions
`get_pnps`/`get_pn`/`get_ps` are external and compute from the group's member
records, modelled by `f` on the `pnps` list. -/
def grouped_cell (f : List PnPs → F64) (entries : List (GroupKey × GroupPnPsL))
    (key : GroupKey) : F64 :=
  match mapGet entries key with
  | none => F64.nan
  | some value => f value.pnps

/-- The `values` vector of one grouped row, in sample iteration order. -/
def grouped_row_values (gm : SampleGroupPnPsL) (f : List PnPs → F64) (key : GroupKey) :
    List F64 :=
  gm.map (fun p => grouped_cell f p.2 key)

/-- Header row of `write_grouped_output`. -/
def grouped_header (gm : SampleGroupPnPsL) : List String :=
  "gene_id" :: "taxon" :: "lineage" :: gm.map Prod.fst

/-- The grouped `non_null_index`: the set of group keys seen in any sample. -/
def grouped_index (gm : SampleGroupPnPsL) : List GroupKey :=
  ((gm.map (fun p => p.2.map Prod.fst)).flatten).dedup

/-- Lineage column of a grouped row: the stored literal string, or, when it is
empty, the taxonomy lookup (modelled by `tax`), whose failure aborts the whole
write through `?`. -/
def resolve_lineage (tax : Nat → Option String) (key : GroupKey) : Except String String :=
  if key.2.2 = "" then
    match tax key.2.1 with
    | none => .error "Cannot build lineage string"
    | some l => .ok l
  else .ok key.2.2

/-- Row loop of `write_grouped_output` over the key index: resolve the lineage
(failure aborts), compute the cells, and write the row only when at least one
cell is IEEE-normal. -/
def grouped_rows (gm : SampleGroupPnPsL) (f : List PnPs → F64)
    (tax : Nat → Option String) : List GroupKey → Except String (List (GroupKey × String × List F64))
  | [] => .ok []
  | key :: rest =>
    match resolve_lineage tax key with
    | .error e => .error e
    | .ok lin =>
      match grouped_rows gm f tax rest with
      | .error e => .error e
      | .ok tail =>
        if 0 < ((grouped_row_values gm f key).filter F64.is_normal).length
        then .ok ((key, lin, grouped_row_values gm f key) :: tail)
        else .ok tail

/-- `write_grouped_output`: header plus emitted rows, or the aborting error. -/
def write_grouped_output (gm : SampleGroupPnPsL) (f : List PnPs → F64)
    (tax : Nat → Option String) :
    Except String (List String × List (GroupKey × String × List F64)) :=
  match grouped_rows gm f tax (grouped_index gm) with
  | .error e => .error e
  | .ok rows => .ok (grouped_header gm, rows)

/-- Rust `str::trim`: strip whitespace from both ends (`Char.isWhitespace`
covers the ASCII whitespace the inputs contain). -/
def strTrim (s : String) : String :=
  String.mk (((s.toList.dropWhile fun c => c.isWhitespace).reverse.dropWhile
    fun c => c.isWhitespace).reverse)

/-- Rust `line.starts_with('#')`. -/
def strStartsWithHash (s : String) : Bool :=
  match s.toList with
  | [] => false
  | c :: _ => decide (c = Char.ofNat 35)

/-- Line step of `read_gene_map_file`; `parseUid` models `Uuid::from_str`.
`#`-prefixed and empty lines are skipped; a line without a tab is skipped by
the `if let`; a tabbed line whose first field fails UID parsing aborts. -/
def gene_map_line (parseUid : String → Option Uuid)
    (m : List (Uuid × List String)) (line : String) :
    Except String (List (Uuid × List String)) :=
  if strStartsWithHash line = true ∨ line = "" then .ok m
  else
    match splitOnce (Char.ofNat 9) (strTrim line) with
    | none => .ok m
    | some (uid, values) =>
      match parseUid uid with
      | none => .error "Cannot parse UID in line"
      | some uid => .ok (mapInsert m uid (values.splitOn ","))

/-- Line step of `read_taxon_map_file`; `parseU32` models `u32::from_str`. -/
def taxon_map_line (parseUid : String → Option Uuid) (parseU32 : String → Option Nat)
    (m : List (Uuid × Nat)) (line : String) : Except String (List (Uuid × Nat)) :=
  if strStartsWithHash line = true ∨ line = "" then .ok m
  else
    match splitOnce (Char.ofNat 9) (strTrim line) with
    | none => .ok m
    | some (uid, taxon_id) =>
      match parseUid uid with
      | none => .error "Cannot parse UID in line"
      | some uid =>
        match parseU32 taxon_id with
        | none => .error "Cannot convert taxon ID"
        | some taxon_id => .ok (mapInsert m uid taxon_id)

/-- Line step of `read_lineage_map_file`. -/
def lineage_map_line (parseUid : String → Option Uuid)
    (m : List (Uuid × String)) (line : String) : Except String (List (Uuid × String)) :=
  if strStartsWithHash line = true ∨ line = "" then .ok m
  else
    match splitOnce (Char.ofNat 9) (strTrim line) with
    | none => .ok m
    | some (uid, lineage) =>
      match parseUid uid with
      | none => .error "Cannot parse UID in line"
      | some uid => .ok (mapInsert m uid lineage)

/-- Shared line loop of the three map-file readers: fold the line steps, a
step error aborting the read. -/
def read_map_go {α : Type} (step : α → String → Except String α) :
    List String → α → Except String α
  | [], m => .ok m
  | line :: rest, m =>
    match step m line with
    | .error e => .error e
    | .ok m2 => read_map_go step rest m2

/-- `read_gene_map_file` on the file's line stream. -/
def read_gene_map_file (parseUid : String → Option Uuid) (lines : List String) :
    Except String (List (Uuid × List String)) :=
  read_map_go (gene_map_line parseUid) lines []

/-- `read_taxon_map_file` on the file's line stream. -/
def read_taxon_map_file (parseUid : String → Option Uuid)
    (parseU32 : String → Option Nat) (lines : List String) :
    Except String (List (Uuid × Nat)) :=
  read_map_go (taxon_map_line parseUid parseU32) lines []

/-- `read_lineage_map_file` on the file's line stream. -/
def read_lineage_map_file (parseUid : String → Option Uuid) (lines : List String) :
    Except String (List (Uuid × String)) :=
  read_map_go (lineage_map_line parseUid) lines []

/-- A Rust `HashMap` deserialized from a JSON document holds exactly the
document's entries, but its iteration order is unspecified (seeded hashing):
any permutation of the document's entry order can be observed. -/
def hashmap_of_doc (doc m : SamplePnPsL) : Prop := m.Perm doc

/-! ### Helper lemmas about the map model -/

theorem mem_mapInsert {α β : Type} [DecidableEq α] {m : List (α × β)} {k : α} {v : β}
    {x : α × β} (hx : x ∈ mapInsert m k v) : x ∈ m ∨ x = (k, v) := by
  induction m with
  | nil => simpa [mapInsert] using hx
  | cons p rest ih =>
    by_cases hk : p.1 = k
    · rcases (by simpa [mapInsert, hk] using hx) with h | h
      · right; simp [h]
      · left; simp [h]
    · rcases (by simpa [mapInsert, hk] using hx) with h | h
      · left; simp [h]
      · rcases ih h with h2 | h2
        · left; simp [h2]
        · right; exact h2

theorem mapGet_mapUpdate_self {α β : Type} [DecidableEq α] (m : List (α × β)) (k : α)
    (f : β → β) : mapGet (mapUpdate m k f) k = (mapGet m k).map f := by
  induction m with
  | nil => simp [mapGet, mapUpdate]
  | cons p rest ih =>
    by_cases hk : p.1 = k
    · simp [mapGet, mapUpdate, hk]
    · simpa [mapGet, mapUpdate, hk] using ih

theorem mapGet_mapUpdate_ne {α β : Type} [DecidableEq α] (m : List (α × β)) {k k2 : α}
    (f : β → β) (h : k2 ≠ k) : mapGet (mapUpdate m k f) k2 = mapGet m k2 := by
  induction m with
  | nil => rfl
  | cons p rest ih =>
    have hrec : mapUpdate (p :: rest) k f
        = (if p.1 = k then (p.1, f p.2) else p) :: mapUpdate rest k f := rfl
    rw [hrec]
    have h3 : ¬ k = k2 := fun hc => h hc.symm
    by_cases hk : p.1 = k
    · simp [mapGet, hk, h3, ih]
    · by_cases hk2 : p.1 = k2
      · simp [mapGet, hk, hk2, h]
      · simp [mapGet, hk, hk2, ih]

theorem mapGet_append_of_some {α β : Type} [DecidableEq α] {m : List (α × β)} {k : α}
    {v : β} (l : List (α × β)) (h : mapGet m k = some v) : mapGet (m ++ l) k = some v := by
  induction m with
  | nil => simp [mapGet] at h
  | cons p rest ih =>
    by_cases hk : p.1 = k
    · simp [mapGet, hk] at h ⊢; exact h
    · simp [mapGet, hk] at h ⊢; exact ih h

theorem mapGet_append_of_none {α β : Type} [DecidableEq α] {m : List (α × β)} {k : α}
    (l : List (α × β)) (h : mapGet m k = none) : mapGet (m ++ l) k = mapGet l k := by
  induction m with
  | nil => simp [mapGet]
  | cons p rest ih =>
    by_cases hk : p.1 = k
    · simp [mapGet, hk] at h
    · simp [mapGet, hk] at h ⊢; exact ih h

theorem map_fst_mapUpdate {α β : Type} [DecidableEq α] (m : List (α × β)) (k : α)
    (f : β → β) : (mapUpdate m k f).map Prod.fst = m.map Prod.fst := by
  induction m with
  | nil => simp [mapUpdate]
  | cons p rest ih =>
    by_cases hk : p.1 = k
    · simpa [mapUpdate, hk] using ih
    · simpa [mapUpdate, hk] using ih

theorem filter_pos_iff_any {α : Type} (l : List α) (p : α → Bool) :
    0 < (l.filter p).length ↔ l.any p = true := by
  induction l with
  | nil => simp
  | cons a rest ih =>
    by_cases h : p a = true
    · simp [List.filter, h]
    · simp only [List.any_cons, List.filter, h]
      simpa [h] using ih

theorem splitOnceAux_eq_none {sep : Char} {l : List Char} (h : sep ∉ l) :
    splitOnceAux sep l = none := by
  induction l with
  | nil => simp [splitOnceAux]
  | cons c cs ih =>
    have hc : ¬ c = sep := fun hc => h (by simp [hc])
    have hcs : sep ∉ cs := fun hm => h (by simp [hm])
    simp [splitOnceAux, hc, ih hcs]

theorem splitOnce_eq_none {sep : Char} {s : String} (h : sep ∉ s.toList) :
    splitOnce sep s = none := by
  have h2 : splitOnceAux sep s.toList = none := splitOnceAux_eq_none h
  simp only [splitOnce, h2]
  rfl

/-! ### Frame lemmas: classification never touches keys or non-counter fields -/

/-- Per-sample key-and-frame skeleton: the UID keys together with every field
of each record other than the observed counters `syn` and `nonsyn`. -/
def inner_frame (m : List (Uuid × PnPs)) : List (Uuid × Uuid × ℚ × ℚ × Nat) :=
  m.map (fun q => (q.1, q.2.uid, q.2.exp_syn, q.2.exp_nonsyn, q.2.coverage))

/-- Whole-table skeleton: sample keys and each sample's `inner_frame`. -/
def outer_frame (pm : SamplePnPsL) : List (String × List (Uuid × Uuid × ℚ × ℚ × Nat)) :=
  pm.map (fun p => (p.1, inner_frame p.2))

theorem inner_frame_mapUpdate (m : List (Uuid × PnPs)) (k : Uuid) (f : PnPs → PnPs)
    (hf : ∀ p : PnPs, (f p).uid = p.uid ∧ (f p).exp_syn = p.exp_syn ∧
      (f p).exp_nonsyn = p.exp_nonsyn ∧ (f p).coverage = p.coverage) :
    inner_frame (mapUpdate m k f) = inner_frame m := by
  induction m with
  | nil => rfl
  | cons p rest ih =>
    have hrec : mapUpdate (p :: rest) k f
        = (if p.1 = k then (p.1, f p.2) else p) :: mapUpdate rest k f := rfl
    rw [hrec]
    by_cases hk : p.1 = k
    · simp only [inner_frame, List.map_cons, hk, if_pos rfl] at ih ⊢
      rw [ih]
      rcases hf p.2 with ⟨h1, h2, h3, h4⟩
      simp [h1, h2, h3, h4]
    · simp only [inner_frame, List.map_cons, if_neg hk] at ih ⊢
      rw [ih]

theorem inner_frame_classify_call (isSyn : Ann → String → Nat → String → Except String Bool)
    (a : Ann) (seq : String) (pos : Nat) (alt : String) (m : List (Uuid × PnPs)) :
    inner_frame (classify_call isSyn a seq pos alt m) = inner_frame m := by
  unfold classify_call
  cases mapGet m a.uid with
  | none => rfl
  | some _ =>
    cases isSyn a seq pos alt with
    | error e => rfl
    | ok b =>
      cases b
      · exact inner_frame_mapUpdate m a.uid _ (fun p => by simp)
      · exact inner_frame_mapUpdate m a.uid _ (fun p => by simp)

theorem outer_frame_mapUpdate (pm : SamplePnPsL) (k : String)
    (g : List (Uuid × PnPs) → List (Uuid × PnPs))
    (hg : ∀ x, inner_frame (g x) = inner_frame x) :
    outer_frame (mapUpdate pm k g) = outer_frame pm := by
  induction pm with
  | nil => rfl
  | cons p rest ih =>
    have hrec : mapUpdate (p :: rest) k g
        = (if p.1 = k then (p.1, g p.2) else p) :: mapUpdate rest k g := rfl
    rw [hrec]
    by_cases hk : p.1 = k
    · rw [if_pos hk]
      simp only [outer_frame, List.map_cons]
      refine congrArg₂ List.cons ?_ ih
      show (p.1, inner_frame (g p.2)) = (p.1, inner_frame p.2)
      rw [hg]
    · rw [if_neg hk]
      simp only [outer_frame, List.map_cons]
      exact congrArg₂ List.cons rfl ih

theorem outer_frame_classify_sample_call (si : SampleInfo)
    (isSyn : Ann → String → Nat → String → Except String Bool) (a : Ann) (seq : String)
    (pos : Nat) (pm : SamplePnPsL) (call : String × String) :
    outer_frame (classify_sample_call si isSyn a seq pos pm call) = outer_frame pm := by
  unfold classify_sample_call
  split
  · rfl
  · split
    · rfl
    · exact outer_frame_mapUpdate pm _ _
        (fun x => inner_frame_classify_call isSyn a seq pos call.2 x)

theorem outer_frame_calls_foldl (si : SampleInfo)
    (isSyn : Ann → String → Nat → String → Except String Bool) (a : Ann) (seq : String)
    (pos : Nat) (calls : List (String × String)) (pm : SamplePnPsL) :
    outer_frame (calls.foldl (fun pm call => classify_sample_call si isSyn a seq pos pm call) pm)
      = outer_frame pm := by
  induction calls generalizing pm with
  | nil => rfl
  | cons c rest ih =>
    rw [List.foldl_cons, ih, outer_frame_classify_sample_call]

theorem outer_frame_classify_ann (fasta : String → Option String) (si : SampleInfo)
    (isSyn : Ann → String → Nat → String → Except String Bool) (pos : Nat)
    (calls : List (String × String)) (pm : SamplePnPsL) (a : Ann) :
    outer_frame (classify_ann fasta si isSyn pos calls pm a) = outer_frame pm := by
  unfold classify_ann
  cases fasta a.seq_id with
  | none => rfl
  | some seq => exact outer_frame_calls_foldl si isSyn a seq pos calls pm

theorem outer_frame_anns_foldl (fasta : String → Option String) (si : SampleInfo)
    (isSyn : Ann → String → Nat → String → Except String Bool) (pos : Nat)
    (calls : List (String × String)) (anns : List Ann) (pm : SamplePnPsL) :
    outer_frame (anns.foldl (classify_ann fasta si isSyn pos calls) pm) = outer_frame pm := by
  induction anns generalizing pm with
  | nil => rfl
  | cons a rest ih =>
    rw [List.foldl_cons, ih, outer_frame_classify_ann]

/-! ### Reader loop lemmas -/

theorem read_map_go_append {α : Type} (step : α → String → Except String α)
    (l1 l2 : List String) (m : α) :
    read_map_go step (l1 ++ l2) m =
      (match read_map_go step l1 m with
       | .error e => .error e
       | .ok m2 => read_map_go step l2 m2) := by
  induction l1 generalizing m with
  | nil => simp [read_map_go]
  | cons line rest ih =>
    rw [List.cons_append]
    cases h : step m line with
    | error e => simp [read_map_go, h]
    | ok m2 => simpa [read_map_go, h] using ih m2

theorem read_map_go_skip {α : Type} (step : α → String → Except String α) (line : String)
    (hline : ∀ m : α, step m line = .ok m) (l1 l2 : List String) (m : α) :
    read_map_go step (l1 ++ line :: l2) m = read_map_go step (l1 ++ l2) m := by
  rw [read_map_go_append, read_map_go_append]
  cases h : read_map_go step l1 m with
  | error e => rfl
  | ok m2 => simp [read_map_go, hline m2]

theorem read_map_go_abort {α : Type} (step : α → String → Except String α) (line : String)
    (e : String) (hline : ∀ m : α, step m line = .error e) (l1 l2 : List String)
    (m m1 : α) (h1 : read_map_go step l1 m = .ok m1) :
    read_map_go step (l1 ++ line :: l2) m = .error e := by
  rw [read_map_go_append, h1]
  simp [read_map_go, hline m1]

theorem gene_map_line_skip (parseUid : String → Option Uuid) (line : String)
    (h1 : strStartsWithHash line = false) (h2 : line ≠ "")
    (h3 : Char.ofNat 9 ∉ (strTrim line).toList) (m : List (Uuid × List String)) :
    gene_map_line parseUid m line = .ok m := by
  unfold gene_map_line
  rw [if_neg (by simp [h1, h2])]
  rw [splitOnce_eq_none h3]

theorem taxon_map_line_skip (parseUid : String → Option Uuid)
    (parseU32 : String → Option Nat) (line : String)
    (h1 : strStartsWithHash line = false) (h2 : line ≠ "")
    (h3 : Char.ofNat 9 ∉ (strTrim line).toList) (m : List (Uuid × Nat)) :
    taxon_map_line parseUid parseU32 m line = .ok m := by
  unfold taxon_map_line
  rw [if_neg (by simp [h1, h2])]
  rw [splitOnce_eq_none h3]

theorem lineage_map_line_skip (parseUid : String → Option Uuid) (line : String)
    (h1 : strStartsWithHash line = false) (h2 : line ≠ "")
    (h3 : Char.ofNat 9 ∉ (strTrim line).toList) (m : List (Uuid × String)) :
    lineage_map_line parseUid m line = .ok m := by
  unfold lineage_map_line
  rw [if_neg (by simp [h1, h2])]
  rw [splitOnce_eq_none h3]

theorem gene_map_line_abort (parseUid : String → Option Uuid) (line : String)
    (h1 : strStartsWithHash line = false) (h2 : line ≠ "") (u rest : String)
    (hsp : splitOnce (Char.ofNat 9) (strTrim line) = some (u, rest))
    (hu : parseUid u = none) (m : List (Uuid × List String)) :
    gene_map_line parseUid m line = .error "Cannot parse UID in line" := by
  unfold gene_map_line
  rw [if_neg (by simp [h1, h2])]
  rw [hsp]
  simp [hu]

theorem taxon_map_line_abort (parseUid : String → Option Uuid)
    (parseU32 : String → Option Nat) (line : String)
    (h1 : strStartsWithHash line = false) (h2 : line ≠ "") (u rest : String)
    (hsp : splitOnce (Char.ofNat 9) (strTrim line) = some (u, rest))
    (hu : parseUid u = none) (m : List (Uuid × Nat)) :
    taxon_map_line parseUid parseU32 m line = .error "Cannot parse UID in line" := by
  unfold taxon_map_line
  rw [if_neg (by simp [h1, h2])]
  rw [hsp]
  simp [hu]

theorem lineage_map_line_abort (parseUid : String → Option Uuid) (line : String)
    (h1 : strStartsWithHash line = false) (h2 : line ≠ "") (u rest : String)
    (hsp : splitOnce (Char.ofNat 9) (strTrim line) = some (u, rest))
    (hu : parseUid u = none) (m : List (Uuid × String)) :
    lineage_map_line parseUid m line = .error "Cannot parse UID in line" := by
  unfold lineage_map_line
  rw [if_neg (by simp [h1, h2])]
  rw [hsp]
  simp [hu]

/-! ### Invariant lemmas for initialization and GFF loading -/

theorem prepareGo_coverage (dm : String → Option (Nat → Nat → Nat))
    (anns : List (Uuid × Ann)) (min_cov : Nat) :
    ∀ (base : List PnPs) (acc sp : List (Uuid × PnPs)),
      (∀ q ∈ acc, min_cov ≤ q.2.coverage) →
      prepareGo dm anns min_cov base acc = .ok sp →
      ∀ q ∈ sp, min_cov ≤ q.2.coverage := by
  intro base
  induction base with
  | nil =>
    intro acc sp hacc h
    simp only [prepareGo] at h
    cases h
    exact hacc
  | cons pnps rest ih =>
    intro acc sp hacc h
    unfold prepareGo at h
    split at h
    · simp at h
    · next a ha =>
      split at h
      · next hcov =>
        refine ih _ sp ?_ h
        intro q hq
        rcases mem_mapInsert hq with h1 | h1
        · exact hacc q h1
        · rw [h1]
          exact hcov
      · exact ih _ sp hacc h

theorem addDepthGo_coverage (pnps_list : List PnPs) (anns : List (Uuid × Ann))
    (read_depth : String → String → Option (Nat → Nat → Nat)) (min_cov : Nat) :
    ∀ (si_rest : SampleInfo) (acc pm : SamplePnPsL),
      (∀ p ∈ acc, ∀ q ∈ p.2, min_cov ≤ q.2.coverage) →
      addDepthGo pnps_list anns read_depth min_cov si_rest acc = .ok pm →
      ∀ p ∈ pm, ∀ q ∈ p.2, min_cov ≤ q.2.coverage := by
  intro si_rest
  induction si_rest with
  | nil =>
    intro acc pm hacc h
    simp only [addDepthGo] at h
    cases h
    exact hacc
  | cons s rest ih =>
    intro acc pm hacc h
    obtain ⟨v, sample_id, d⟩ := s
    unfold addDepthGo at h
    split at h
    · simp at h
    · next sp hsp =>
      split at h
      · simp at h
      · refine ih _ pm ?_ h
        intro p hp q hq
        rcases mem_mapInsert hp with h1 | h1
        · exact hacc p h1 q hq
        · rw [h1] at hq
          exact prepareGo_coverage (read_depth d) anns min_cov pnps_list [] sp (by simp) hsp q hq

theorem gffGo_cds : ∀ (anns : List Ann) (m : List (Uuid × Ann)),
    (∀ p ∈ m, p.2.feature_type = "CDS") →
    ∀ p ∈ gffGo anns m, p.2.feature_type = "CDS" := by
  intro anns
  induction anns with
  | nil =>
    intro m hm p hp
    exact hm p (by simpa [gffGo] using hp)
  | cons a rest ih =>
    intro m hm p hp
    by_cases h : a.feature_type = "CDS"
    · refine ih (mapInsert m a.uid a) ?_ p (by simpa [gffGo, h] using hp)
      intro q hq
      rcases mem_mapInsert hq with h1 | h1
      · exact hm q h1
      · rw [h1]
        exact h
    · exact ih m hm p (by simpa [gffGo, h] using hp)

/-! ### Claim theorems -/

/-- C1 (code bug): per-sample initialization does NOT special-case a sample
whose coverage-filtered set is empty.  `add_depth_sample_data` calls
`sp.values().max_by_key(|c| c.coverage).unwrap()`, and with one annotation,
a depth map holding no entry for its reference sequence (coverage 0) and
minimum coverage 1 the retained set is empty, so the `unwrap()` of the
max-coverage summary lookup is a Rust panic that aborts the run. -/
theorem c1_empty_retained_set_panics :
    add_depth_sample_data [("S1", "SampleA", "d1")]
      [{ uid := "u1", exp_syn := 1, exp_nonsyn := 2 }]
      [("u1", { uid := "u1", seq_id := "s1", start := 0, stop := 10,
                feature_type := "CDS" })]
      (fun _ => fun _ => none) 1
      = .crash "called Option unwrap on a None value" := rfl

/-- C2 (code bug): the end-of-stream low-depth percentage is computed as the
unconditional IEEE division `skipped_dp / count * 100`; on a stream with no
records both counters are 0 and the division 0/0 is performed, yielding NaN
in the report rather than being guarded against. -/
theorem c2_zero_records_percentage_is_nan :
    (parse_vcf_file [] (fun _ => none) [] (fun _ _ _ _ => .error "") 0 0 [] []).2
        = F64.nan ∧
    dp_percentage 0 0 = F64.nan :=
  ⟨rfl, rfl⟩

/-- C8: every record retained by per-sample initialization has
`coverage ≥ min_cov` — both per sample (`prepare_sample_pnps`) and across all
samples of `add_depth_sample_data`, by construction of the coverage filter. -/
theorem c8_retained_coverage_ge_min (pnps_base pnps_list : List PnPs)
    (dm : String → Option (Nat → Nat → Nat)) (anns : List (Uuid × Ann))
    (read_depth : String → String → Option (Nat → Nat → Nat)) (si : SampleInfo)
    (min_cov : Nat) (sp : List (Uuid × PnPs)) (pm : SamplePnPsL) :
    (prepare_sample_pnps pnps_base dm anns min_cov = .ok sp →
      ∀ q ∈ sp, min_cov ≤ q.2.coverage) ∧
    (add_depth_sample_data si pnps_list anns read_depth min_cov = .ok pm →
      ∀ p ∈ pm, ∀ q ∈ p.2, min_cov ≤ q.2.coverage) :=
  ⟨fun h => prepareGo_coverage dm anns min_cov pnps_base [] sp (by simp) h,
   fun h => addDepthGo_coverage pnps_list anns read_depth min_cov si [] pm (by simp) h⟩

/-- C8 witness: a concrete run retains a record of coverage 5 under minimum
coverage 3, and the theorem yields `3 ≤ 5` for it. -/
theorem c8_retained_coverage_ge_min_witness :
    3 ≤ (({ uid := "u1", exp_syn := 1, exp_nonsyn := 2, syn := 0, nonsyn := 0,
            coverage := 5 } : PnPs)).coverage :=
  (c8_retained_coverage_ge_min
      [{ uid := "u1", exp_syn := 1, exp_nonsyn := 2 }] []
      (fun _ => some (fun _ _ => 5))
      [("u1", { uid := "u1", seq_id := "s1", start := 0, stop := 10,
                feature_type := "CDS" })]
      (fun _ _ => none) [] 3
      [("u1", { uid := "u1", exp_syn := 1, exp_nonsyn := 2, syn := 0, nonsyn := 0,
                coverage := 5 })] []).1 rfl
    ("u1", { uid := "u1", exp_syn := 1, exp_nonsyn := 2, syn := 0, nonsyn := 0,
             coverage := 5 })
    (by simp)

/-- C10: annotation loading retains only annotations whose feature type is
exactly `"CDS"`: every entry of the map built by `read_gff_file` has feature
type `"CDS"`, so no other annotation can reach baseline construction, the
coverage filter, or any output. -/
theorem c10_only_cds_retained (anns : List Ann) :
    ∀ p ∈ read_gff_file anns, p.2.feature_type = "CDS" :=
  gffGo_cds anns [] (by simp)

/-- C10 witness: a concrete CDS annotation is retained and the theorem
evaluates its feature type. -/
theorem c10_only_cds_retained_witness :
    (({ uid := "u1", seq_id := "s1", start := 0, stop := 10,
        feature_type := "CDS" } : Ann)).feature_type = "CDS" :=
  c10_only_cds_retained
    [{ uid := "u1", seq_id := "s1", start := 0, stop := 10, feature_type := "CDS" }]
    ("u1", { uid := "u1", seq_id := "s1", start := 0, stop := 10,
             feature_type := "CDS" })
    (by simp [read_gff_file, gffGo, mapInsert])

/-- C9: in each of the three map-file readers, a non-empty, non-`#` line with
no tab separator is silently skipped (the read of the surrounding lines is
unchanged, no entry, no error), while a tabbed line whose first field fails
UID parsing aborts the read with an error — provided the reader actually
reaches that line (the earlier lines read without error). -/
theorem c9_map_reader_line_handling (parseUid : String → Option Uuid)
    (parseU32 : String → Option Nat) (line : String)
    (h1 : strStartsWithHash line = false) (h2 : line ≠ "") :
    (Char.ofNat 9 ∉ (strTrim line).toList →
      (∀ l1 l2, read_gene_map_file parseUid (l1 ++ line :: l2)
          = read_gene_map_file parseUid (l1 ++ l2)) ∧
      (∀ l1 l2, read_taxon_map_file parseUid parseU32 (l1 ++ line :: l2)
          = read_taxon_map_file parseUid parseU32 (l1 ++ l2)) ∧
      (∀ l1 l2, read_lineage_map_file parseUid (l1 ++ line :: l2)
          = read_lineage_map_file parseUid (l1 ++ l2))) ∧
    (∀ u rest, splitOnce (Char.ofNat 9) (strTrim line) = some (u, rest) →
      parseUid u = none →
      (∀ l1 l2 m1, read_map_go (gene_map_line parseUid) l1 [] = .ok m1 →
        read_gene_map_file parseUid (l1 ++ line :: l2)
          = .error "Cannot parse UID in line") ∧
      (∀ l1 l2 m1, read_map_go (taxon_map_line parseUid parseU32) l1 [] = .ok m1 →
        read_taxon_map_file parseUid parseU32 (l1 ++ line :: l2)
          = .error "Cannot parse UID in line") ∧
      (∀ l1 l2 m1, read_map_go (lineage_map_line parseUid) l1 [] = .ok m1 →
        read_lineage_map_file parseUid (l1 ++ line :: l2)
          = .error "Cannot parse UID in line")) := by
  constructor
  · intro h3
    refine ⟨fun l1 l2 => ?_, fun l1 l2 => ?_, fun l1 l2 => ?_⟩
    · exact read_map_go_skip _ line (gene_map_line_skip parseUid line h1 h2 h3) l1 l2 []
    · exact read_map_go_skip _ line (taxon_map_line_skip parseUid parseU32 line h1 h2 h3) l1 l2 []
    · exact read_map_go_skip _ line (lineage_map_line_skip parseUid line h1 h2 h3) l1 l2 []
  · intro u rest hsp hu
    refine ⟨fun l1 l2 m1 hok => ?_, fun l1 l2 m1 hok => ?_, fun l1 l2 m1 hok => ?_⟩
    · exact read_map_go_abort _ line _
        (gene_map_line_abort parseUid line h1 h2 u rest hsp hu) l1 l2 [] m1 hok
    · exact read_map_go_abort _ line _
        (taxon_map_line_abort parseUid parseU32 line h1 h2 u rest hsp hu) l1 l2 [] m1 hok
    · exact read_map_go_abort _ line _
        (lineage_map_line_abort parseUid line h1 h2 u rest hsp hu) l1 l2 [] m1 hok

/-- C9 witness: concrete runs of both ways — the tab-free line `"abc"` is
skipped by all three readers, and the tabbed line with an unparsable first
field aborts the gene-map reader. -/
theorem c9_map_reader_line_handling_witness :
    read_gene_map_file (fun _ => none) ["abc"] = read_gene_map_file (fun _ => none) [] ∧
    read_gene_map_file (fun _ => none) ["x\ty"] = .error "Cannot parse UID in line" :=
  ⟨by
      have h := ((c9_map_reader_line_handling (fun _ => none) (fun _ => none) "abc"
        (by decide) (by decide)).1 (by decide)).1 [] []
      simpa using h,
   by
      have h := (((c9_map_reader_line_handling (fun _ => none) (fun _ => none) "x\ty"
        (by decide) (by decide)).2 "x" "y" (by decide) rfl).1 [] [] [] rfl)
      simpa using h⟩

/-- C5: the three skip filters of the record loop apply in the order depth,
quality, indel/multi-base reference; each increments exactly its own skip
counter (a record failing an earlier filter never reaches a later one), and a
skipped record leaves the whole counter table untouched. -/
theorem c5_skip_filters_order (ann_seq : List (String × List Ann))
    (fasta : String → Option String) (si : SampleInfo)
    (isSyn : Ann → String → Nat → String → Except String Bool)
    (min_qual : ℚ) (min_depth : Nat) (st : VcfState) (record : VcfRecord) :
    (record.info.dp < min_depth →
      process_record ann_seq fasta si isSyn min_qual min_depth st record
        = { st with count := st.count + 1, skipped_dp := st.skipped_dp + 1 }) ∧
    (¬ record.info.dp < min_depth → record.qual < min_qual →
      process_record ann_seq fasta si isSyn min_qual min_depth st record
        = { st with count := st.count + 1, skipped_qual := st.skipped_qual + 1 }) ∧
    (¬ record.info.dp < min_depth → ¬ record.qual < min_qual →
      (record.info.indel = true ∨ 1 < record.ref_c.length) →
      process_record ann_seq fasta si isSyn min_qual min_depth st record
        = { st with count := st.count + 1, skipped_indel := st.skipped_indel + 1 }) := by
  refine ⟨fun h1 => ?_, fun h1 h2 => ?_, fun h1 h2 h3 => ?_⟩
  · simp [process_record, h1]
  · simp [process_record, h1, h2]
  · simp [process_record, h1, h2, h3]

/-- C5 witness: with minimum depth 5 and minimum quality 10, a depth-3
record, a depth-5/quality-2 record and a depth-5/quality-10 indel record take
exactly the three skip branches on the empty initial state. -/
theorem c5_skip_filters_order_witness :
    (process_record [] (fun _ => none) [] (fun _ _ _ _ => .error "") 10 5
        ⟨0, 0, 0, 0, []⟩ ⟨"c", 0, 2, ⟨3, false⟩, "A", []⟩
      = ⟨1, 1, 0, 0, []⟩) ∧
    (process_record [] (fun _ => none) [] (fun _ _ _ _ => .error "") 10 5
        ⟨0, 0, 0, 0, []⟩ ⟨"c", 0, 2, ⟨5, false⟩, "A", []⟩
      = ⟨1, 0, 1, 0, []⟩) ∧
    (process_record [] (fun _ => none) [] (fun _ _ _ _ => .error "") 10 5
        ⟨0, 0, 0, 0, []⟩ ⟨"c", 0, 10, ⟨5, true⟩, "A", []⟩
      = ⟨1, 0, 0, 1, []⟩) :=
  ⟨(c5_skip_filters_order [] (fun _ => none) [] (fun _ _ _ _ => .error "") 10 5
      ⟨0, 0, 0, 0, []⟩ ⟨"c", 0, 2, ⟨3, false⟩, "A", []⟩).1 (by decide),
   (c5_skip_filters_order [] (fun _ => none) [] (fun _ _ _ _ => .error "") 10 5
      ⟨0, 0, 0, 0, []⟩ ⟨"c", 0, 2, ⟨5, false⟩, "A", []⟩).2.1 (by decide) (by decide),
   (c5_skip_filters_order [] (fun _ => none) [] (fun _ _ _ _ => .error "") 10 5
      ⟨0, 0, 0, 0, []⟩ ⟨"c", 0, 10, ⟨5, true⟩, "A", []⟩).2.2 (by decide) (by decide)
      (Or.inl rfl)⟩

/-- C6: processing a record never changes the key set of `SamplePnPs` nor any
non-counter field (the `outer_frame`), classification only mutates `syn` and
`nonsyn` of existing entries; a call whose UID is absent from the sample's
table, or whose resolved sample is absent from the outer table, is silently
ignored. -/
theorem c6_classification_preserves_keys (ann_seq : List (String × List Ann))
    (fasta : String → Option String) (si : SampleInfo)
    (isSyn : Ann → String → Nat → String → Except String Bool)
    (min_qual : ℚ) (min_depth : Nat) (st : VcfState) (record : VcfRecord) :
    outer_frame (process_record ann_seq fasta si isSyn min_qual min_depth st record).pnps_map
      = outer_frame st.pnps_map ∧
    (∀ (a : Ann) (seq : String) (pos : Nat) (alt : String) (m : List (Uuid × PnPs)),
      mapGet m a.uid = none → classify_call isSyn a seq pos alt m = m) ∧
    (∀ (a : Ann) (seq : String) (pos : Nat) (pm : SamplePnPsL) (call : String × String)
      (sd : String × String), mapGet si call.1 = some sd → mapGet pm sd.1 = none →
      classify_sample_call si isSyn a seq pos pm call = pm) := by
  refine ⟨?_, ?_, ?_⟩
  · by_cases h1 : record.info.dp < min_depth
    · simp [process_record, h1]
    · by_cases h2 : record.qual < min_qual
      · simp [process_record, h1, h2]
      · by_cases h3 : record.info.indel = true ∨ 1 < record.ref_c.length
        · simp [process_record, h1, h2, h3]
        · cases h4 : mapGet ann_seq record.chrom with
          | none => simp [process_record, h1, h2, h3, h4]
          | some anns => simp [process_record, h1, h2, h3, h4, outer_frame_anns_foldl]
  · intro a seq pos alt m h
    simp [classify_call, h]
  · intro a seq pos pm call sd h1 h2
    simp [classify_sample_call, h1, h2]

/-- C6 witness: a concrete record through classification with an untouched
frame, an absent-UID call and an absent-sample call both leaving the tables
unchanged. -/
theorem c6_classification_preserves_keys_witness :
    outer_frame (process_record [] (fun _ => none) [("S1", "SampleA", "d")]
        (fun _ _ _ _ => .ok true) 0 0 ⟨0, 0, 0, 0, [("SampleA", [])]⟩
        ⟨"c", 0, 2, ⟨3, false⟩, "A", [("S1", "A")]⟩).pnps_map
      = outer_frame [("SampleA", [])] ∧
    classify_call (fun _ _ _ _ => Except.ok true)
        { uid := "u1", seq_id := "s1", start := 0, stop := 10, feature_type := "CDS" }
        "ACGT" 0 "A" [] = [] ∧
    classify_sample_call [("S1", "SampleA", "d")] (fun _ _ _ _ => Except.ok true)
        { uid := "u1", seq_id := "s1", start := 0, stop := 10, feature_type := "CDS" }
        "ACGT" 0 [] ("S1", "A") = [] :=
  ⟨(c6_classification_preserves_keys [] (fun _ => none) [("S1", "SampleA", "d")]
      (fun _ _ _ _ => .ok true) 0 0 ⟨0, 0, 0, 0, [("SampleA", [])]⟩
      ⟨"c", 0, 2, ⟨3, false⟩, "A", [("S1", "A")]⟩).1,
   (c6_classification_preserves_keys [] (fun _ => none) [("S1", "SampleA", "d")]
      (fun _ _ _ _ => .ok true) 0 0 ⟨0, 0, 0, 0, [("SampleA", [])]⟩
      ⟨"c", 0, 2, ⟨3, false⟩, "A", [("S1", "A")]⟩).2.1
      { uid := "u1", seq_id := "s1", start := 0, stop := 10, feature_type := "CDS" }
      "ACGT" 0 "A" [] rfl,
   (c6_classification_preserves_keys [] (fun _ => none) [("S1", "SampleA", "d")]
      (fun _ _ _ _ => .ok true) 0 0 ⟨0, 0, 0, 0, [("SampleA", [])]⟩
      ⟨"c", 0, 2, ⟨3, false⟩, "A", [("S1", "A")]⟩).2.2
      { uid := "u1", seq_id := "s1", start := 0, stop := 10, feature_type := "CDS" }
      "ACGT" 0 [] ("S1", "A") ("SampleA", "d") rfl rfl⟩

/-! ### Group membership lemmas for the aggregator -/

/-- `v` is a member of the group at `key`. -/
def group_mem (sm : List (GroupKey × GroupPnPsL)) (key : GroupKey) (v : PnPs) : Prop :=
  ∃ gp, mapGet sm key = some gp ∧ v ∈ gp.pnps

theorem insert_group_establishes (sm : List (GroupKey × GroupPnPsL)) (gene_id : String)
    (taxon_id : Nat) (taxon_lineage : String) (v : PnPs) :
    group_mem (insert_group sm gene_id taxon_id taxon_lineage v)
      (gene_id, taxon_id, taxon_lineage) v := by
  cases h : mapGet sm (gene_id, taxon_id, taxon_lineage) with
  | none =>
    have he : insert_group sm gene_id taxon_id taxon_lineage v
        = sm ++ [((gene_id, taxon_id, taxon_lineage),
            { gene_id := gene_id, taxon_id := taxon_id,
              pnps := [v], taxon_lineage := taxon_lineage })] := by
      unfold insert_group
      rw [h]
    rw [he]
    refine ⟨{ gene_id := gene_id, taxon_id := taxon_id,
              pnps := [v], taxon_lineage := taxon_lineage }, ?_, ?_⟩
    · rw [mapGet_append_of_none _ h]
      simp [mapGet]
    · simp
  | some gp =>
    have he : insert_group sm gene_id taxon_id taxon_lineage v
        = mapUpdate sm (gene_id, taxon_id, taxon_lineage)
            (fun w => { w with pnps := w.pnps ++ [v] }) := by
      unfold insert_group
      rw [h]
    rw [he]
    refine ⟨{ gp with pnps := gp.pnps ++ [v] }, ?_, ?_⟩
    · rw [mapGet_mapUpdate_self, h]
      rfl
    · simp

theorem insert_group_preserves (sm : List (GroupKey × GroupPnPsL)) (gene_id : String)
    (taxon_id : Nat) (taxon_lineage : String) (v v0 : PnPs) (key : GroupKey)
    (h : group_mem sm key v0) :
    group_mem (insert_group sm gene_id taxon_id taxon_lineage v) key v0 := by
  obtain ⟨gp, hget, hv⟩ := h
  by_cases hk : key = (gene_id, taxon_id, taxon_lineage)
  · subst hk
    have he : insert_group sm gene_id taxon_id taxon_lineage v
        = mapUpdate sm (gene_id, taxon_id, taxon_lineage)
            (fun w => { w with pnps := w.pnps ++ [v] }) := by
      unfold insert_group
      rw [hget]
    rw [he]
    refine ⟨{ gp with pnps := gp.pnps ++ [v] }, ?_, ?_⟩
    · rw [mapGet_mapUpdate_self, hget]
      rfl
    · exact List.mem_append_left _ hv
  · cases h2 : mapGet sm (gene_id, taxon_id, taxon_lineage) with
    | none =>
      have he : insert_group sm gene_id taxon_id taxon_lineage v
          = sm ++ [((gene_id, taxon_id, taxon_lineage),
              { gene_id := gene_id, taxon_id := taxon_id,
                pnps := [v], taxon_lineage := taxon_lineage })] := by
        unfold insert_group
        rw [h2]
      rw [he]
      exact ⟨gp, mapGet_append_of_some _ hget, hv⟩
    | some gp2 =>
      have he : insert_group sm gene_id taxon_id taxon_lineage v
          = mapUpdate sm (gene_id, taxon_id, taxon_lineage)
              (fun w => { w with pnps := w.pnps ++ [v] }) := by
        unfold insert_group
        rw [h2]
      rw [he]
      exact ⟨gp, by rw [mapGet_mapUpdate_ne _ _ hk]; exact hget, hv⟩

theorem foldl_insert_preserves (gs : List String) (taxon_id : Nat) (taxon_lineage : String)
    (v v0 : PnPs) (key : GroupKey) :
    ∀ sm, group_mem sm key v0 →
      group_mem (gs.foldl (fun sm g => insert_group sm g taxon_id taxon_lineage v) sm) key v0 := by
  induction gs with
  | nil => intro sm h; exact h
  | cons g rest ih =>
    intro sm h
    exact ih _ (insert_group_preserves sm g taxon_id taxon_lineage v v0 key h)

theorem foldl_insert_establishes (gs : List String) (taxon_id : Nat)
    (taxon_lineage : String) (v : PnPs) :
    ∀ sm, ∀ g ∈ gs,
      group_mem (gs.foldl (fun sm g => insert_group sm g taxon_id taxon_lineage v) sm)
        (g, taxon_id, taxon_lineage) v := by
  induction gs with
  | nil => intro sm g hg; simp at hg
  | cons g0 rest ih =>
    intro sm g hg
    rcases List.mem_cons.mp hg with h | h
    · subst h
      rw [List.foldl_cons]
      exact foldl_insert_preserves rest taxon_id taxon_lineage v v _ _
        (insert_group_establishes sm g taxon_id taxon_lineage v)
    · rw [List.foldl_cons]
      exact ih _ g h

theorem group_entry_establishes (gene_map : List (Uuid × List String))
    (taxon_map : List (Uuid × Nat)) (lineage_map : List (Uuid × String))
    (sm : List (GroupKey × GroupPnPsL)) (e : Uuid × PnPs) :
    ∀ g ∈ gene_ids_of gene_map e.1,
      group_mem (group_entry gene_map taxon_map lineage_map sm e)
        (g, taxon_of taxon_map e.1, lineage_of lineage_map e.1) e.2 :=
  fun g hg => foldl_insert_establishes _ _ _ _ sm g hg

theorem group_entry_preserves (gene_map : List (Uuid × List String))
    (taxon_map : List (Uuid × Nat)) (lineage_map : List (Uuid × String))
    (sm : List (GroupKey × GroupPnPsL)) (e : Uuid × PnPs) (key : GroupKey) (v0 : PnPs)
    (h : group_mem sm key v0) :
    group_mem (group_entry gene_map taxon_map lineage_map sm e) key v0 :=
  foldl_insert_preserves _ _ _ _ _ _ sm h

theorem foldl_group_entry_preserves (gene_map : List (Uuid × List String))
    (taxon_map : List (Uuid × Nat)) (lineage_map : List (Uuid × String))
    (entries : List (Uuid × PnPs)) (key : GroupKey) (v0 : PnPs) :
    ∀ sm, group_mem sm key v0 →
      group_mem (entries.foldl (group_entry gene_map taxon_map lineage_map) sm) key v0 := by
  induction entries with
  | nil => intro sm h; exact h
  | cons e rest ih =>
    intro sm h
    exact ih _ (group_entry_preserves gene_map taxon_map lineage_map sm e key v0 h)

theorem group_sample_mem (gene_map : List (Uuid × List String))
    (taxon_map : List (Uuid × Nat)) (lineage_map : List (Uuid × String))
    (entries : List (Uuid × PnPs)) :
    ∀ e ∈ entries, ∀ g ∈ gene_ids_of gene_map e.1,
      group_mem (group_sample gene_map taxon_map lineage_map entries)
        (g, taxon_of taxon_map e.1, lineage_of lineage_map e.1) e.2 := by
  unfold group_sample
  suffices h : ∀ (l : List (Uuid × PnPs)) (sm : List (GroupKey × GroupPnPsL)),
      ∀ e ∈ l, ∀ g ∈ gene_ids_of gene_map e.1,
        group_mem (l.foldl (group_entry gene_map taxon_map lineage_map) sm)
          (g, taxon_of taxon_map e.1, lineage_of lineage_map e.1) e.2 by
    exact fun e he g hg => h entries [] e he g hg
  intro l
  induction l with
  | nil => intro sm e he; simp at he
  | cons e0 rest ih =>
    intro sm e he g hg
    rcases List.mem_cons.mp he with h | h
    · subst h
      rw [List.foldl_cons]
      exact foldl_group_entry_preserves gene_map taxon_map lineage_map rest _ _ _
        (group_entry_establishes gene_map taxon_map lineage_map sm e g hg)
    · rw [List.foldl_cons]
      exact ih _ e h g hg

/-- C7: grouping defaults and fan-out.  A UID absent from the gene map gets
its own textual form as gene id, absent taxon-map entries give taxon id 0,
absent lineage-map entries give the empty lineage; every record is inserted
into one group per gene id of its UID (the same record value, not a copy);
and in the two-gene-id scenario the grouped output holds two rows whose
per-sample cell values are identical. -/
theorem c7_grouping_defaults_and_fanout (gene_map : List (Uuid × List String))
    (taxon_map : List (Uuid × Nat)) (lineage_map : List (Uuid × String)) (uid : Uuid) :
    (mapGet gene_map uid = none → gene_ids_of gene_map uid = [uid]) ∧
    (mapGet taxon_map uid = none → taxon_of taxon_map uid = 0) ∧
    (mapGet lineage_map uid = none → lineage_of lineage_map uid = "") ∧
    (∀ (entries : List (Uuid × PnPs)), ∀ e ∈ entries, ∀ g ∈ gene_ids_of gene_map e.1,
      group_mem (group_sample gene_map taxon_map lineage_map entries)
        (g, taxon_of taxon_map e.1, lineage_of lineage_map e.1) e.2) ∧
    (∀ (f : List PnPs → F64) (tax : Nat → Option String) (lin : String) (v : PnPs),
      (f [v]).is_normal = true → tax 0 = some lin →
      write_grouped_output (group_pnps [("S", [("u1", v)])] [("u1", ["g1", "g2"])] [] [])
          f tax
        = .ok (["gene_id", "taxon", "lineage", "S"],
               [(("g1", 0, ""), lin, [f [v]]), (("g2", 0, ""), lin, [f [v]])])) := by
  refine ⟨fun h => ?_, fun h => ?_, fun h => ?_, ?_, ?_⟩
  · simp [gene_ids_of, h]
  · simp [taxon_of, h]
  · simp [lineage_of, h]
  · exact fun entries e he g hg => group_sample_mem gene_map taxon_map lineage_map entries e he g hg
  · intro f tax lin v hf htax
    have hres1 : resolve_lineage tax ("g1", 0, "") = .ok lin := by
      simp [resolve_lineage, htax]
    have hres2 : resolve_lineage tax ("g2", 0, "") = .ok lin := by
      simp [resolve_lineage, htax]
    simp [write_grouped_output, grouped_rows, grouped_index, group_pnps, group_sample,
      group_entry, gene_ids_of, taxon_of, lineage_of, insert_group, mapGet, mapUpdate,
      grouped_row_values, grouped_cell, grouped_header, hres1, hres2, hf, List.filter]

/-- C7 witness: concrete defaults for an unmapped UID, fan-out membership of
a concrete record in the group of its first gene id, and the concrete
two-gene-id run producing the two identical rows. -/
theorem c7_grouping_defaults_and_fanout_witness :
    gene_ids_of [("u1", ["g1", "g2"])] "u2" = ["u2"] ∧
    taxon_of [] "u2" = 0 ∧
    lineage_of [] "u2" = "" ∧
    group_mem (group_sample [("u1", ["g1", "g2"])] [] []
        [("u1", { uid := "u1", exp_syn := 1, exp_nonsyn := 2 })])
      ("g1", 0, "") { uid := "u1", exp_syn := 1, exp_nonsyn := 2 } ∧
    write_grouped_output
        (group_pnps [("S", [("u1", { uid := "u1", exp_syn := 1, exp_nonsyn := 2 })])]
          [("u1", ["g1", "g2"])] [] [])
        (fun _ => F64.normal 1) (fun _ => some "L")
      = .ok (["gene_id", "taxon", "lineage", "S"],
             [(("g1", 0, ""), "L", [F64.normal 1]), (("g2", 0, ""), "L", [F64.normal 1])]) :=
  ⟨(c7_grouping_defaults_and_fanout [("u1", ["g1", "g2"])] [] [] "u2").1 rfl,
   (c7_grouping_defaults_and_fanout [("u1", ["g1", "g2"])] [] [] "u2").2.1 rfl,
   (c7_grouping_defaults_and_fanout [("u1", ["g1", "g2"])] [] [] "u2").2.2.1 rfl,
   (c7_grouping_defaults_and_fanout [("u1", ["g1", "g2"])] [] [] "u2").2.2.2.1
     [("u1", { uid := "u1", exp_syn := 1, exp_nonsyn := 2 })]
     ("u1", { uid := "u1", exp_syn := 1, exp_nonsyn := 2 }) (by simp)
     "g1" (by simp [gene_ids_of, mapGet]),
   (c7_grouping_defaults_and_fanout [("u1", ["g1", "g2"])] [] [] "u2").2.2.2.2
     (fun _ => F64.normal 1) (fun _ => some "L") "L"
     { uid := "u1", exp_syn := 1, exp_nonsyn := 2 } rfl rfl⟩

/-! ### Row emission lemmas -/

theorem output_rows_mem (pm : SamplePnPsL) (f : PnPs → F64) (uid : Uuid) (vs : List F64)
    (hm : (uid, vs) ∈ output_rows pm f) :
    vs = row_values pm f uid ∧ 0 < (vs.filter F64.is_normal).length ∧
    uid ∈ non_null_index pm := by
  rcases List.mem_filterMap.mp hm with ⟨a, ha, hfa⟩
  split at hfa
  · next hcond =>
    injection hfa with h
    injection h with h1 h2
    subst h1
    subst h2
    exact ⟨rfl, hcond, ha⟩
  · simp at hfa

theorem output_rows_complete (pm : SamplePnPsL) (f : PnPs → F64) (uid : Uuid)
    (hu : uid ∈ non_null_index pm)
    (hpos : 0 < ((row_values pm f uid).filter F64.is_normal).length) :
    (uid, row_values pm f uid) ∈ output_rows pm f :=
  List.mem_filterMap.mpr ⟨uid, hu, by rw [if_pos hpos]⟩

theorem grouped_rows_mem (gm : SampleGroupPnPsL) (f : List PnPs → F64)
    (tax : Nat → Option String) :
    ∀ (keys : List GroupKey) (rows : List (GroupKey × String × List F64))
      (key : GroupKey) (lin : String) (vs : List F64),
      grouped_rows gm f tax keys = .ok rows → (key, lin, vs) ∈ rows →
      vs = grouped_row_values gm f key ∧ 0 < (vs.filter F64.is_normal).length ∧
      key ∈ keys ∧ resolve_lineage tax key = .ok lin := by
  intro keys
  induction keys with
  | nil =>
    intro rows key lin vs h hm
    simp only [grouped_rows] at h
    cases h
    simp at hm
  | cons k rest ih =>
    intro rows key lin vs h hm
    unfold grouped_rows at h
    split at h
    · simp at h
    · next lin2 hres =>
      split at h
      · simp at h
      · next tail htail =>
        split at h
        · next hcond =>
          cases h
          rcases List.mem_cons.mp hm with h1 | h1
          · injection h1 with h1a h1b
            injection h1b with h1c h1d
            subst h1a
            subst h1c
            subst h1d
            exact ⟨rfl, hcond, List.mem_cons_self _ _, hres⟩
          · obtain ⟨ha, hb, hc, hd⟩ := ih _ key lin vs htail h1
            exact ⟨ha, hb, List.mem_cons_of_mem _ hc, hd⟩
        · cases h
          obtain ⟨ha, hb, hc, hd⟩ := ih _ key lin vs htail hm
          exact ⟨ha, hb, List.mem_cons_of_mem _ hc, hd⟩

theorem grouped_rows_complete (gm : SampleGroupPnPsL) (f : List PnPs → F64)
    (tax : Nat → Option String) :
    ∀ (keys : List GroupKey) (rows : List (GroupKey × String × List F64))
      (key : GroupKey),
      grouped_rows gm f tax keys = .ok rows → key ∈ keys →
      0 < ((grouped_row_values gm f key).filter F64.is_normal).length →
      ∃ lin, (key, lin, grouped_row_values gm f key) ∈ rows := by
  intro keys
  induction keys with
  | nil =>
    intro rows key h hk
    simp at hk
  | cons k rest ih =>
    intro rows key h hk hpos
    unfold grouped_rows at h
    split at h
    · simp at h
    · next lin2 hres =>
      split at h
      · simp at h
      · next tail htail =>
        rcases List.mem_cons.mp hk with h1 | h1
        · subst h1
          split at h
          · next hcond =>
            cases h
            exact ⟨lin2, List.mem_cons_self _ _⟩
          · next hcond => exact absurd hpos hcond
        · split at h
          · next hcond =>
            cases h
            obtain ⟨lin, hlin⟩ := ih _ key htail h1 hpos
            exact ⟨lin, List.mem_cons_of_mem _ hlin⟩
          · cases h
            exact ih _ key htail h1 hpos

/-- C3 counterexample: the columns are produced by iterating the deserialized
`HashMap`, whose iteration order is unspecified; for the document with samples
in order `A`, `B` a legal map state iterates `B` first, and the header is then
not `uid, A, B`. -/
theorem c3_columns_doc_order_counterexample :
    hashmap_of_doc [("A", []), ("B", [])] [("B", []), ("A", [])] ∧
    output_header [("B", []), ("A", [])] ≠ "uid" :: ["A", "B"] := by
  constructor
  · exact List.Perm.swap ("A", []) ("B", []) []
  · decide

/-- C3 (amended): in both ungrouped and grouped output the columns are the
sample ids in the map's iteration order — arbitrary, not necessarily the
source document's order — and every data row lists its cell values in exactly
that header order. -/
theorem c3_columns_match_header_order (pm : SamplePnPsL) (f : PnPs → F64)
    (gm : SampleGroupPnPsL) (g : List PnPs → F64) (tax : Nat → Option String) :
    (write_output pm f).1 = "uid" :: pm.map Prod.fst ∧
    (∀ uid vs, (uid, vs) ∈ (write_output pm f).2 →
      vs = pm.map (fun p => cell_value f p.2 uid)) ∧
    (∀ hdr rows, write_grouped_output gm g tax = .ok (hdr, rows) →
      hdr = "gene_id" :: "taxon" :: "lineage" :: gm.map Prod.fst ∧
      ∀ key lin vs, (key, lin, vs) ∈ rows →
        vs = gm.map (fun p => grouped_cell g p.2 key)) := by
  refine ⟨rfl, ?_, ?_⟩
  · intro uid vs hm
    exact (output_rows_mem pm f uid vs hm).1
  · intro hdr rows h
    unfold write_grouped_output at h
    split at h
    · simp at h
    · next rows2 hrows =>
      injection h with h
      injection h with h1 h2
      subst h1
      subst h2
      refine ⟨rfl, ?_⟩
      intro key lin vs hm
      exact (grouped_rows_mem gm g tax _ rows2 key lin vs hrows hm).1

/-- C3 witness: a concrete ungrouped run whose row cells align with the
header, and a concrete grouped run likewise. -/
theorem c3_columns_match_header_order_witness :
    (write_output [("A", [("u1", { uid := "u1", exp_syn := 1, exp_nonsyn := 2 })])]
        (fun _ => F64.normal 1)).1
      = "uid" :: [("A", [("u1",
          ({ uid := "u1", exp_syn := 1, exp_nonsyn := 2 } : PnPs))])].map Prod.fst ∧
    [F64.normal 1] = [("A", [("u1", { uid := "u1", exp_syn := 1, exp_nonsyn := 2 })])].map
      (fun p => cell_value (fun _ => F64.normal 1) p.2 "u1") ∧
    [F64.normal 1] = (group_pnps
        [("S", [("u1", { uid := "u1", exp_syn := 1, exp_nonsyn := 2 })])]
        [("u1", ["g1", "g2"])] [] []).map
      (fun p => grouped_cell (fun _ => F64.normal 1) p.2 ("g1", 0, "")) :=
  ⟨(c3_columns_match_header_order
      [("A", [("u1", { uid := "u1", exp_syn := 1, exp_nonsyn := 2 })])]
      (fun _ => F64.normal 1) [] (fun _ => F64.nan) (fun _ => none)).1,
   (c3_columns_match_header_order
      [("A", [("u1", { uid := "u1", exp_syn := 1, exp_nonsyn := 2 })])]
      (fun _ => F64.normal 1) [] (fun _ => F64.nan) (fun _ => none)).2.1
      "u1" [F64.normal 1] (by decide),
   ((c3_columns_match_header_order
      [("A", [("u1", { uid := "u1", exp_syn := 1, exp_nonsyn := 2 })])]
      (fun _ => F64.normal 1)
      (group_pnps [("S", [("u1", { uid := "u1", exp_syn := 1, exp_nonsyn := 2 })])]
        [("u1", ["g1", "g2"])] [] [])
      (fun _ => F64.normal 1) (fun _ => some "L")).2.2
      ["gene_id", "taxon", "lineage", "S"]
      [(("g1", 0, ""), "L", [F64.normal 1]), (("g2", 0, ""), "L", [F64.normal 1])]
      rfl).2 ("g1", 0, "") "L" [F64.normal 1] (by decide)⟩

/-- C4: in both output modes a row of the key index is written if and only if
at least one of its per-sample cells is an IEEE-754 normal value; rows whose
cells are all NaN sentinel, zero, subnormal or infinite are dropped. -/
theorem c4_row_emitted_iff_any_normal (pm : SamplePnPsL) (f : PnPs → F64) (uid : Uuid)
    (gm : SampleGroupPnPsL) (g : List PnPs → F64) (tax : Nat → Option String)
    (rows : List (GroupKey × String × List F64)) (key : GroupKey)
    (hu : uid ∈ non_null_index pm)
    (hok : grouped_rows gm g tax (grouped_index gm) = .ok rows)
    (hk : key ∈ grouped_index gm) :
    ((∃ vs, (uid, vs) ∈ output_rows pm f) ↔
      (row_values pm f uid).any F64.is_normal = true) ∧
    ((∃ lin vs, (key, lin, vs) ∈ rows) ↔
      (grouped_row_values gm g key).any F64.is_normal = true) := by
  constructor
  · constructor
    · rintro ⟨vs, hm⟩
      obtain ⟨h1, h2, _⟩ := output_rows_mem pm f uid vs hm
      rw [h1] at h2
      exact (filter_pos_iff_any _ _).mp h2
    · intro h
      exact ⟨_, output_rows_complete pm f uid hu ((filter_pos_iff_any _ _).mpr h)⟩
  · constructor
    · rintro ⟨lin, vs, hm⟩
      obtain ⟨h1, h2, _, _⟩ := grouped_rows_mem gm g tax _ rows key lin vs hok hm
      rw [h1] at h2
      exact (filter_pos_iff_any _ _).mp h2
    · intro h
      obtain ⟨lin, hlin⟩ := grouped_rows_complete gm g tax _ rows key hok hk
        ((filter_pos_iff_any _ _).mpr h)
      exact ⟨lin, _, hlin⟩

/-- C4 witness: the emission equivalence instantiated at a concrete run with
a normal cell in both output modes. -/
theorem c4_row_emitted_iff_any_normal_witness :
    ((∃ vs, ("u1", vs) ∈ output_rows
        [("A", [("u1", { uid := "u1", exp_syn := 1, exp_nonsyn := 2 })])]
        (fun _ => F64.normal 1)) ↔
      (row_values [("A", [("u1", { uid := "u1", exp_syn := 1, exp_nonsyn := 2 })])]
        (fun _ => F64.normal 1) "u1").any F64.is_normal = true) ∧
    ((∃ lin vs, (("g1", (0 : Nat), ""), lin, vs) ∈
        [((("g1" : String), (0 : Nat), ("" : String)), ("L" : String), [F64.normal 1]),
         ((("g2" : String), (0 : Nat), ("" : String)), ("L" : String), [F64.normal 1])]) ↔
      (grouped_row_values
        (group_pnps [("S", [("u1", { uid := "u1", exp_syn := 1, exp_nonsyn := 2 })])]
          [("u1", ["g1", "g2"])] [] [])
        (fun _ => F64.normal 1) ("g1", 0, "")).any F64.is_normal = true) :=
  c4_row_emitted_iff_any_normal
    [("A", [("u1", { uid := "u1", exp_syn := 1, exp_nonsyn := 2 })])]
    (fun _ => F64.normal 1) "u1"
    (group_pnps [("S", [("u1", { uid := "u1", exp_syn := 1, exp_nonsyn := 2 })])]
      [("u1", ["g1", "g2"])] [] [])
    (fun _ => F64.normal 1) (fun _ => some "L")
    [(("g1", 0, ""), "L", [F64.normal 1]), (("g2", 0, ""), "L", [F64.normal 1])]
    ("g1", 0, "") (by decide) rfl (by decide)
